import Mathlib

/-!
Shallow embedding of the `oz-agent-action` sources (`src/agent.ts`, `src/index.ts`)
together with proofs about the claims of the specification.

Modelling conventions:
  * JavaScript strings are Lean `String`s; the JS truthiness test `if (s)` on a
    string is the test `s ≠ ""`.
  * `version.startsWith('v')` is a check on the leading character and
    `version.slice(1)` drops the leading character; both are modelled on
    `String.data`.
  * The external collaborators (the HTTP client, `new URL(...).pathname`,
    `@actions/tool-cache`, `@actions/exec`, the input store of `@actions/core`)
    are passed in as oracle functions, exactly as the spec treats them as
    external.  `tc.find` returns the empty string on a cache miss, matching the
    library contract used by the falsy test in the source.
  * Effectful steps record an explicit trace of events (`Eff`), so that
    "before any network call" claims become statements about the trace.
  * Thrown `Error` values become an `OzError` result carrying the exact
    message string built by the source.
-/

/-- Events performed by the effectful parts of the action, in order. -/
inductive Eff where
  | httpGet (url : String)
  | cacheQuery (tool key : String)
  | download (url : String)
  | cacheStore (file filename tool key : String)
  | installCmd (cmd : String) (args : List String)
  | execCmd (cmd : String) (args : List String)
  deriving DecidableEq, Repr

/-- Errors thrown by the action; each constructor carries the exact message
string produced by the corresponding `throw new Error(...)` in the source. -/
inductive OzError where
  | missingRequiredInput (msg : String)
  | unsupportedChannel (msg : String)
  | unsupportedPlatform (msg : String)
  | unsupportedArchitecture (msg : String)
  | redirectExpected (msg : String)
  | missingRedirectLocation (msg : String)
  | processFailed (msg : String)
  deriving DecidableEq, Repr

/-- The relevant part of the HTTP client's response: `response.message.statusCode`
(absence modelled as `0`, which is treated like any other non-redirect status)
and the `location` header, which is `none` when the header is missing. -/
structure HttpResponse where
  statusCode : Nat
  location : Option String
  deriving DecidableEq, Repr

/-- External collaborators of the action, supplied as pure oracles:
`httpGet` is the redirect-probing client, `pathnameOf` is `new URL(u).pathname`,
`cacheFind`/`downloadTool`/`cacheFile` are the `@actions/tool-cache` functions
(`cacheFind` returns `""` on a miss), and `exec` runs a process, returning the
captured stdout or an error message on spawn failure / non-zero exit. -/
structure Oracles where
  httpGet : String → HttpResponse
  pathnameOf : String → String
  cacheFind : String → String → String
  downloadTool : String → String
  cacheFile : String → String → String → String → String
  exec : String → List String → Except String String

/-- The action inputs read via `core.getInput` / `core.getMultilineInput` /
`core.isDebug` in `runAgent` (src/agent.ts lines 13-46). -/
structure Inputs where
  ozChannel : String
  prompt : String
  savedPrompt : String
  skill : String
  model : String
  name : String
  mcp : String
  cwd : String
  profile : String
  outputFormat : String
  share : List String
  debug : Bool
  warpApiKey : String
  ozVersion : String

/-- `resolveCommand` (src/agent.ts lines 67-76): the switch over the channel. -/
def resolveCommand (channel : String) : Except OzError String :=
  if channel = "stable" then .ok "oz"
  else if channel = "preview" then .ok "oz-preview"
  else .error (.unsupportedChannel ("Unsupported channel " ++ channel))

/-- Options consumed by `buildArgs` (src/agent.ts lines 78-90). -/
structure BuildArgsOptions where
  prompt : String
  savedPrompt : String
  skill : String
  model : String
  name : String
  mcp : String
  cwd : String
  profile : String
  outputFormat : String
  shareRecipients : List String
  debug : Bool

/-- `buildArgs` (src/agent.ts lines 93-145), modelled push-for-push: each
`if (opts.x) args.push(...)` becomes a conditional append, the
`if (opts.shareRecipients)` guard is always true in the source (an array is
always truthy), so the loop runs unconditionally as a fold. -/
def buildArgs (opts : BuildArgsOptions) : List String :=
  let args := ["agent", "run"]
  let args := if opts.prompt ≠ "" then args ++ ["--prompt", opts.prompt] else args
  let args := if opts.savedPrompt ≠ "" then args ++ ["--saved-prompt", opts.savedPrompt] else args
  let args := if opts.skill ≠ "" then args ++ ["--skill", opts.skill] else args
  let args := if opts.model ≠ "" then args ++ ["--model", opts.model] else args
  let args := if opts.name ≠ "" then args ++ ["--name", opts.name] else args
  let args := if opts.mcp ≠ "" then args ++ ["--mcp", opts.mcp] else args
  let args := if opts.cwd ≠ "" then args ++ ["--cwd", opts.cwd] else args
  let args := if opts.profile ≠ "" then args ++ ["--profile", opts.profile]
    else args ++ ["--sandboxed"]
  let args := if opts.outputFormat ≠ "" then args ++ ["--output-format", opts.outputFormat]
    else args
  let args := opts.shareRecipients.foldl (fun acc r => acc ++ ["--share", r]) args
  let args := if opts.debug then args ++ ["--debug"] else args
  args

/-- One optional flag/value pair: the tokens contributed by one
`if (opts.x) args.push(flag, opts.x)` step. -/
def opt2 (flag v : String) : List String :=
  if v ≠ "" then [flag, v] else []

/-- The tokens contributed by the profile/sandboxed branch
(src/agent.ts lines 124-128). -/
def profileSeg (opts : BuildArgsOptions) : List String :=
  if opts.profile ≠ "" then ["--profile", opts.profile] else ["--sandboxed"]

/-- The tokens contributed by the share loop (src/agent.ts lines 134-138). -/
def shareArgs : List String → List String
  | [] => []
  | r :: rs => "--share" :: r :: shareArgs rs

/-- The tokens preceding the profile/sandboxed branch. -/
def beforeProfile (opts : BuildArgsOptions) : List String :=
  ["agent", "run"]
    ++ opt2 "--prompt" opts.prompt
    ++ opt2 "--saved-prompt" opts.savedPrompt
    ++ opt2 "--skill" opts.skill
    ++ opt2 "--model" opts.model
    ++ opt2 "--name" opts.name
    ++ opt2 "--mcp" opts.mcp
    ++ opt2 "--cwd" opts.cwd

/-- The tokens following the profile/sandboxed branch. -/
def afterProfile (opts : BuildArgsOptions) : List String :=
  opt2 "--output-format" opts.outputFormat
    ++ shareArgs opts.shareRecipients
    ++ (if opts.debug then ["--debug"] else [])

/-- Modelled from the spec (section 4.2): the argument list described step by
step by the specification — `agent`, `run`, then one flag/value pair per
non-empty field in the documented order, the mutually exclusive
profile/sandboxed branch, `--output-format` when non-empty, one
`--share`/recipient pair per recipient in input order, and `--debug` when
debug is set. -/
def buildArgsSpec (opts : BuildArgsOptions) : List String :=
  ["agent", "run"]
    ++ (if opts.prompt ≠ "" then ["--prompt", opts.prompt] else [])
    ++ (if opts.savedPrompt ≠ "" then ["--saved-prompt", opts.savedPrompt] else [])
    ++ (if opts.skill ≠ "" then ["--skill", opts.skill] else [])
    ++ (if opts.model ≠ "" then ["--model", opts.model] else [])
    ++ (if opts.name ≠ "" then ["--name", opts.name] else [])
    ++ (if opts.mcp ≠ "" then ["--mcp", opts.mcp] else [])
    ++ (if opts.cwd ≠ "" then ["--cwd", opts.cwd] else [])
    ++ (if opts.profile ≠ "" then ["--profile", opts.profile] else ["--sandboxed"])
    ++ (if opts.outputFormat ≠ "" then ["--output-format", opts.outputFormat] else [])
    ++ ((opts.shareRecipients.map (fun r => ["--share", r])).flatten)
    ++ (if opts.debug then ["--debug"] else [])

/-- The nine scalar string fields of the options, in source order; used to
account for flag-valued field values in token counts. -/
def fieldValues (opts : BuildArgsOptions) : List String :=
  [opts.prompt, opts.savedPrompt, opts.skill, opts.model, opts.name,
   opts.mcp, opts.cwd, opts.profile, opts.outputFormat]

/-- `version.startsWith('v')` from the source (src/agent.ts line 205): a test
on the leading character of the string. -/
def startsWithV (s : String) : Bool :=
  match s.data with
  | c :: _ => c == 'v'
  | [] => false

/-- `version.slice(1)` from the source (src/agent.ts line 206): the string
without its first character. -/
def slice1 (s : String) : String :=
  ⟨s.data.drop 1⟩

/-- Result of the concrete-version branch of `downloadOzDeb`
(src/agent.ts lines 203-212). -/
structure ConcreteResolution where
  debVersion : String
  tagVersion : String
  debUrl : String
  deriving DecidableEq, Repr

/-- The concrete-version branch of `downloadOzDeb` (src/agent.ts lines
203-212): normalize the version to a package (`deb`) version and a
`v`-prefixed tag version (the source mutates `version` in place; here the
mutated value is `tagVersion`), then build the template download URL. -/
def resolveConcrete (channel version debArch : String) : ConcreteResolution :=
  let debVersion := if startsWithV version then slice1 version else version
  let tagVersion := if startsWithV version then version else "v" ++ version
  { debVersion := debVersion
    tagVersion := tagVersion
    debUrl := "https://releases.warp.dev/" ++ channel ++ "/" ++ tagVersion
      ++ "/oz_" ++ channel ++ "_" ++ debVersion ++ "_" ++ debArch ++ ".deb" }

/-- JavaScript `str.split('/')` on the character list of a string: splits at
every `'/'`, keeping empty segments (so `"".split('/') = [""]`). -/
def splitOnSlash : List Char → List (List Char)
  | [] => [[]]
  | c :: rest =>
    let r := splitOnSlash rest
    if c = '/' then [] :: r
    else
      match r with
      | s :: ss => (c :: s) :: ss
      | [] => [[c]]

/-- `url.pathname.split('/').filter((c) => c)` from the source
(src/agent.ts line 193): the path split on `/` with empty (falsy) segments
discarded. -/
def pathSegments (s : String) : List String :=
  ((splitOnSlash s.data).map (fun cs => (⟨cs⟩ : String))).filter (fun c => c != "")

/-- The redirect-handling part of the `latest` branch of `downloadOzDeb`
(src/agent.ts lines 186-200), as a function of the HTTP response and of the
URL-pathname extractor.  The JS test `if (!location)` is falsy for a missing
header and for an empty-string header alike.  On success it returns the
redirect target (the new download URL) and the resolved version, which stays
`"latest"` (the value of `version` in this branch) when fewer than two path
segments are present. -/
def resolveLatestResponse (resp : HttpResponse) (pathnameOf : String → String) :
    Except OzError (String × String) :=
  if resp.statusCode = 302 ∨ resp.statusCode = 301 then
    match resp.location with
    | none => .error (.missingRedirectLocation "Redirect location header missing")
    | some loc =>
      if loc = "" then .error (.missingRedirectLocation "Redirect location header missing")
      else
        let comps := pathSegments (pathnameOf loc)
        let v := if 2 ≤ comps.length then comps.getD 1 "latest" else "latest"
        .ok (loc, v)
  else
    .error (.redirectExpected ("Expected redirect, got status " ++ toString resp.statusCode))

/-- `path.join(a, b)` for the non-empty POSIX segments used by the source. -/
def pathJoin (a b : String) : String :=
  a ++ "/" ++ b

/-- The caching tail of `downloadOzDeb` (src/agent.ts lines 214-223): build
the cache key, query the tool cache, and on a miss download and register the
file; returns the event trace and the path of the cached package. -/
def cacheOzDeb (o : Oracles) (channel version debUrl : String) : List Eff × String :=
  let cacheVersion := channel ++ "-" ++ version
  let cached := o.cacheFind "oz" cacheVersion
  if cached = "" then
    let downloaded := o.downloadTool debUrl
    let stored := o.cacheFile downloaded "oz.deb" "oz" cacheVersion
    ([.cacheQuery "oz" cacheVersion, .download debUrl,
      .cacheStore downloaded "oz.deb" "oz" cacheVersion],
     pathJoin stored "oz.deb")
  else
    ([.cacheQuery "oz" cacheVersion], pathJoin cached "oz.deb")

/-- The body of `downloadOzDeb` after the platform and architecture guards
(src/agent.ts lines 180-223), with the two architecture identifiers already
chosen. -/
def downloadOzDebArch (o : Oracles) (channel version arch debArch : String) :
    List Eff × Except OzError String :=
  if version = "latest" then
    let url := "https://app.warp.dev/download/cli?os=linux&package=deb&arch=" ++ arch
      ++ "&channel=" ++ channel
    match resolveLatestResponse (o.httpGet url) o.pathnameOf with
    | .error e => ([Eff.httpGet url], .error e)
    | .ok (debUrl, version') =>
      let r := cacheOzDeb o channel version' debUrl
      (Eff.httpGet url :: r.1, .ok r.2)
  else
    let rc := resolveConcrete channel version debArch
    let r := cacheOzDeb o channel rc.tagVersion rc.debUrl
    (r.1, .ok r.2)

/-- `downloadOzDeb` (src/agent.ts lines 159-224): platform guard, then the
two-way architecture dispatch, then the shared body.  The host platform and
CPU architecture (`process.platform`, `process.arch`) are passed explicitly. -/
def downloadOzDeb (o : Oracles) (platform osArch channel version : String) :
    List Eff × Except OzError String :=
  if platform ≠ "linux" then
    ([], .error (.unsupportedPlatform
      ("Only Linux runners are supported - the current platform is " ++ platform)))
  else if osArch = "x64" then
    downloadOzDebArch o channel version "x86_64" "amd64"
  else if osArch = "arm64" then
    downloadOzDebArch o channel version "aarch64" "arm64"
  else
    ([], .error (.unsupportedArchitecture ("Unsupported architecture " ++ osArch)))

/-- `installOz` (src/agent.ts lines 148-155): download the package, then run
`dpkg -i` and `apt-get -f install`; either command throws on failure.  On
success it returns the package path (the value threaded to the install
commands). -/
def installOz (o : Oracles) (platform osArch channel version : String) :
    List Eff × Except OzError String :=
  match downloadOzDeb o platform osArch channel version with
  | (effs, .error e) => (effs, .error e)
  | (effs, .ok ozDeb) =>
    match o.exec "sudo" ["dpkg", "-i", ozDeb] with
    | .error m =>
      (effs ++ [.installCmd "sudo" ["dpkg", "-i", ozDeb]], .error (.processFailed m))
    | .ok _ =>
      match o.exec "sudo" ["apt-get", "-f", "install"] with
      | .error m =>
        (effs ++ [.installCmd "sudo" ["dpkg", "-i", ozDeb],
          .installCmd "sudo" ["apt-get", "-f", "install"]], .error (.processFailed m))
      | .ok _ =>
        (effs ++ [.installCmd "sudo" ["dpkg", "-i", ozDeb],
          .installCmd "sudo" ["apt-get", "-f", "install"]], .ok ozDeb)

/-- The part of `runAgent` after the input validation (src/agent.ts lines
31-63): resolve the command, install the tool, build the arguments and run
the agent, capturing stdout as the `agent_output` value.  The diagnostic
log dump on failure is warning-level only and is not modelled. -/
def runAgentMain (inp : Inputs) (platform osArch : String) (o : Oracles) :
    List Eff × Except OzError String :=
  match resolveCommand inp.ozChannel with
  | .error e => ([], .error e)
  | .ok command =>
    match installOz o platform osArch inp.ozChannel inp.ozVersion with
    | (effs, .error e) => (effs, .error e)
    | (effs, .ok _) =>
      let args := buildArgs
        { prompt := inp.prompt
          savedPrompt := inp.savedPrompt
          skill := inp.skill
          model := inp.model
          name := inp.name
          mcp := inp.mcp
          cwd := inp.cwd
          profile := inp.profile
          outputFormat := inp.outputFormat
          shareRecipients := inp.share
          debug := inp.debug }
      match o.exec command args with
      | .error m => (effs ++ [.execCmd command args], .error (.processFailed m))
      | .ok out => (effs ++ [.execCmd command args], .ok out)

/-- `runAgent` (src/agent.ts lines 12-64): the two input-validation guards
(src/agent.ts lines 22-29), then the main pipeline. -/
def runAgent (inp : Inputs) (platform osArch : String) (o : Oracles) :
    List Eff × Except OzError String :=
  if inp.prompt = "" ∧ inp.savedPrompt = "" ∧ inp.skill = "" then
    ([], .error (.missingRequiredInput
      "Either `prompt`, `saved_prompt`, or `skill` must be provided"))
  else if inp.warpApiKey = "" then
    ([], .error (.missingRequiredInput "`warp_api_key` must be provided."))
  else
    runAgentMain inp platform osArch o

/-- An input record with no prompt, saved prompt or skill, used to exercise
the validation guard on a closed input. -/
def sampleMissingInputs : Inputs where
  ozChannel := "stable"
  prompt := ""
  savedPrompt := ""
  skill := ""
  model := ""
  name := ""
  mcp := ""
  cwd := ""
  profile := ""
  outputFormat := ""
  share := []
  debug := false
  warpApiKey := "key"
  ozVersion := "latest"

/-- A concrete oracle assignment used to exercise the model on closed inputs. -/
def sampleOracles : Oracles where
  httpGet := fun _ => { statusCode := 302, location := some "/stable/v9.9.9/oz.deb" }
  pathnameOf := fun s => s
  cacheFind := fun _ _ => ""
  downloadTool := fun u => u ++ ".tmp"
  cacheFile := fun _ _ _ _ => "/cache/entry"
  exec := fun _ _ => .ok "done"

theorem foldl_share (rs : List String) (init : List String) :
    rs.foldl (fun acc r => acc ++ ["--share", r]) init = init ++ shareArgs rs := by
  induction rs generalizing init with
  | nil => simp [shareArgs]
  | cons r rs ih =>
    simp only [List.foldl_cons, shareArgs, ih, List.append_assoc]
    rfl

theorem if_append_push (c : Prop) [Decidable c] (a x : List String) :
    (if c then a ++ x else a) = a ++ (if c then x else []) := by
  split <;> simp

theorem if_append_push2 (c : Prop) [Decidable c] (a x y : List String) :
    (if c then a ++ x else a ++ y) = a ++ (if c then x else y) := by
  split <;> simp

/-- Key structural fact: `buildArgs` is the concatenation of its per-field
segments, in source order. -/
theorem buildArgs_segments (opts : BuildArgsOptions) :
    buildArgs opts = beforeProfile opts ++ profileSeg opts ++ afterProfile opts := by
  simp only [buildArgs, beforeProfile, profileSeg, afterProfile, opt2,
    foldl_share, if_append_push, if_append_push2, List.append_assoc]

theorem startsWithV_append (s : String) (h : startsWithV s = true) :
    "v" ++ slice1 s = s := by
  cases s with
  | mk data =>
    cases data with
    | nil => simp [startsWithV] at h
    | cons c t =>
      have hc : c = 'v' := by
        have h' : (c == 'v') = true := h
        exact eq_of_beq h'
      subst hc
      rfl

theorem shareArgs_flatten (rs : List String) :
    shareArgs rs = (rs.map (fun r => ["--share", r])).flatten := by
  induction rs with
  | nil => rfl
  | cons r rs ih => simp [shareArgs, ih]

/-- Claim C1: `buildArgs` returns exactly the documented sequence: the tokens
`agent`, `run`; then one flag/value pair per field in the order prompt,
saved-prompt, skill, model, name, mcp, cwd, present exactly when the field is
non-empty; then the profile/sandboxed branch; then `--output-format` and its
value exactly when non-empty; then one `--share`/recipient pair per recipient
in input order; then `--debug` exactly when debug is set — and nothing else. -/
theorem buildArgs_matches_spec (opts : BuildArgsOptions) :
    buildArgs opts = buildArgsSpec opts := by
  rw [buildArgs_segments]
  simp only [beforeProfile, profileSeg, afterProfile, buildArgsSpec, opt2,
    shareArgs_flatten, List.append_assoc]

/-- Claim C3: `resolveCommand` maps `stable` to `oz` and `preview` to
`oz-preview`, and fails on every other channel string, the empty string
included, with the message `Unsupported channel <value>`; it is a pure
function of its argument (modelled as such), so it has no side effects. -/
theorem resolveCommand_spec :
    resolveCommand "stable" = .ok "oz"
    ∧ resolveCommand "preview" = .ok "oz-preview"
    ∧ ∀ s, s ≠ "stable" → s ≠ "preview" →
        resolveCommand s = .error (.unsupportedChannel ("Unsupported channel " ++ s)) := by
  refine ⟨rfl, rfl, ?_⟩
  intro s h1 h2
  simp [resolveCommand, h1, h2]

theorem resolveCommand_spec_witness :
    ("" : String) ≠ "stable" ∧ ("" : String) ≠ "preview"
    ∧ resolveCommand "" = .error (.unsupportedChannel ("Unsupported channel " ++ "")) :=
  ⟨by decide, by decide, resolveCommand_spec.2.2 "" (by decide) (by decide)⟩

/-- Claim C4: for a concrete (non-`latest`) version the package (deb) version
is the version with its leading `v` (if any) stripped, the tag version is the
version with a leading `v` guaranteed present, and the download URL is exactly
the template
`https://releases.warp.dev/<channel>/<tag>/oz_<channel>_<deb>_<debArch>.deb`. -/
theorem resolveConcrete_spec (channel version debArch : String)
    (_hv : version ≠ "latest") :
    (resolveConcrete channel version debArch).debVersion
        = (if startsWithV version then slice1 version else version)
    ∧ (resolveConcrete channel version debArch).tagVersion
        = (if startsWithV version then version else "v" ++ version)
    ∧ (resolveConcrete channel version debArch).debUrl
        = "https://releases.warp.dev/" ++ channel ++ "/"
          ++ (resolveConcrete channel version debArch).tagVersion
          ++ "/oz_" ++ channel ++ "_" ++ (resolveConcrete channel version debArch).debVersion
          ++ "_" ++ debArch ++ ".deb" := by
  refine ⟨rfl, rfl, rfl⟩

theorem resolveConcrete_spec_witness :
    ("v1.2.3" : String) ≠ "latest"
    ∧ (resolveConcrete "stable" "1.2.3" "amd64").debVersion = "1.2.3"
    ∧ (resolveConcrete "stable" "1.2.3" "amd64").tagVersion = "v1.2.3"
    ∧ (resolveConcrete "stable" "v1.2.3" "amd64").debVersion = "1.2.3"
    ∧ (resolveConcrete "stable" "v1.2.3" "amd64").tagVersion = "v1.2.3"
    ∧ (resolveConcrete "stable" "v1.2.3" "amd64").debUrl
        = "https://releases.warp.dev/stable/v1.2.3/oz_stable_1.2.3_amd64.deb" := by
  have h := resolveConcrete_spec "stable" "v1.2.3" "amd64" (by decide)
  exact ⟨by decide, by decide, by decide, (h.1).trans (by decide),
    (h.2.1).trans (by decide), (h.2.2).trans (by decide)⟩

/-- Claim C9: for every concrete version string the computed tag version is
`v` prepended to the computed package version, whether or not the input
already carried one or more leading `v` characters. -/
theorem resolveConcrete_tag_eq (channel version debArch : String)
    (_hv : version ≠ "latest") :
    (resolveConcrete channel version debArch).tagVersion
      = "v" ++ (resolveConcrete channel version debArch).debVersion := by
  unfold resolveConcrete
  by_cases h : startsWithV version = true
  · simp only [if_pos h]
    exact (startsWithV_append version h).symm
  · simp only [if_neg h]

theorem resolveConcrete_tag_eq_witness :
    ("vv7" : String) ≠ "latest"
    ∧ (resolveConcrete "preview" "vv7" "arm64").debVersion = "v7"
    ∧ (resolveConcrete "preview" "vv7" "arm64").tagVersion
        = "v" ++ (resolveConcrete "preview" "vv7" "arm64").debVersion :=
  ⟨by decide, by decide, resolveConcrete_tag_eq "preview" "vv7" "arm64" (by decide)⟩

theorem append_eq_append_cons {α : Type} (l₁ l₂ pre post : List α) (x : α)
    (h : l₁ ++ l₂ = pre ++ x :: post) :
    (∃ post₁, l₁ = pre ++ x :: post₁ ∧ post = post₁ ++ l₂) ∨
    (∃ pre₂, pre = l₁ ++ pre₂ ∧ l₂ = pre₂ ++ x :: post) := by
  induction l₁ generalizing pre with
  | nil =>
    right
    exact ⟨pre, rfl, by simpa using h⟩
  | cons a l₁ ih =>
    cases pre with
    | nil =>
      left
      simp only [List.cons_append, List.nil_append, List.cons.injEq] at h
      obtain ⟨rfl, h2⟩ := h
      exact ⟨l₁, rfl, h2.symm⟩
    | cons b pre =>
      simp only [List.cons_append, List.cons.injEq] at h
      obtain ⟨rfl, h2⟩ := h
      rcases ih pre h2 with ⟨post₁, h3, h4⟩ | ⟨pre₂, h3, h4⟩
      · exact Or.inl ⟨post₁, by simp [h3], h4⟩
      · exact Or.inr ⟨pre₂, by simp [h3], h4⟩

theorem shareArgs_empty_after_share (rs : List String) :
    ∀ pre post, shareArgs rs = pre ++ "" :: post → ∃ q, pre = q ++ ["--share"] := by
  induction rs with
  | nil =>
    intro pre post h
    simp [shareArgs] at h
  | cons r rs ih =>
    intro pre post h
    simp only [shareArgs] at h
    cases pre with
    | nil =>
      rw [List.nil_append] at h
      injection h with h1 h2
      exact absurd h1 (by decide)
    | cons a pre' =>
      rw [List.cons_append] at h
      injection h with h1 h2
      subst h1
      cases pre' with
      | nil => exact ⟨[], by simp⟩
      | cons b pre'' =>
        rw [List.cons_append] at h2
        injection h2 with h3 h4
        subst h3
        obtain ⟨q, hq⟩ := ih pre'' post h4
        exact ⟨"--share" :: r :: q, by simp [hq]⟩

theorem empty_not_mem_opt2 (flag v : String) (hf : flag ≠ "") : "" ∉ opt2 flag v := by
  intro hmem
  unfold opt2 at hmem
  by_cases hv : v = ""
  · rw [if_neg (fun hcon => hcon hv)] at hmem
    exact (List.not_mem_nil _) hmem
  · rw [if_pos hv] at hmem
    rcases List.mem_cons.mp hmem with h | h
    · exact hf h.symm
    · rcases List.mem_cons.mp h with h2 | h2
      · exact hv h2.symm
      · exact (List.not_mem_nil _) h2

theorem empty_not_mem_beforeProfile (opts : BuildArgsOptions) :
    "" ∉ beforeProfile opts := by
  intro hmem
  simp only [beforeProfile, List.mem_append] at hmem
  rcases hmem with (((((((h | h) | h) | h) | h) | h) | h) | h)
  · exact absurd h (by decide)
  · exact empty_not_mem_opt2 _ _ (by decide) h
  · exact empty_not_mem_opt2 _ _ (by decide) h
  · exact empty_not_mem_opt2 _ _ (by decide) h
  · exact empty_not_mem_opt2 _ _ (by decide) h
  · exact empty_not_mem_opt2 _ _ (by decide) h
  · exact empty_not_mem_opt2 _ _ (by decide) h
  · exact empty_not_mem_opt2 _ _ (by decide) h

theorem empty_not_mem_profileSeg (opts : BuildArgsOptions) :
    "" ∉ profileSeg opts := by
  intro hmem
  unfold profileSeg at hmem
  by_cases hp : opts.profile ≠ ""
  · rw [if_pos hp] at hmem
    rcases List.mem_cons.mp hmem with h | h
    · exact absurd h (by decide)
    · rcases List.mem_cons.mp h with h2 | h2
      · exact hp h2.symm
      · exact (List.not_mem_nil _) h2
  · rw [if_neg hp] at hmem
    exact absurd hmem (by decide)

theorem empty_after_share_core (L S D : List String) (hL : "" ∉ L) (hD : "" ∉ D)
    (hS : ∀ pre post, S = pre ++ "" :: post → ∃ q, pre = q ++ ["--share"]) :
    ∀ pre post, L ++ (S ++ D) = pre ++ "" :: post → ∃ q, pre = q ++ ["--share"] := by
  intro pre post h
  rcases append_eq_append_cons L (S ++ D) pre post "" h with
    ⟨post₁, hL1, _⟩ | ⟨pre₂, hpre, h2⟩
  · have : "" ∈ L := by rw [hL1]; simp
    exact absurd this hL
  · rcases append_eq_append_cons S D pre₂ post "" h2 with
      ⟨post₂, hS1, _⟩ | ⟨pre₃, hpre₃, hD1⟩
    · obtain ⟨q, hq⟩ := hS pre₂ post₂ hS1
      exact ⟨L ++ q, by rw [hpre, hq, List.append_assoc]⟩
    · have : "" ∈ D := by rw [hD1]; simp
      exact absurd this hD

/-- Every empty-string token in a `buildArgs` result is immediately preceded
by a `--share` flag: the only values the source pushes unconditionally are the
share recipients; every other pushed value is guarded by a non-emptiness test. -/
theorem buildArgs_empty_after_share (opts : BuildArgsOptions) :
    ∀ pre post, buildArgs opts = pre ++ "" :: post → ∃ q, pre = q ++ ["--share"] := by
  have hform : buildArgs opts =
      (beforeProfile opts ++ profileSeg opts ++ opt2 "--output-format" opts.outputFormat)
        ++ (shareArgs opts.shareRecipients ++ (if opts.debug then ["--debug"] else [])) := by
    rw [buildArgs_segments]
    simp [afterProfile, List.append_assoc]
  intro pre post h
  rw [hform] at h
  refine empty_after_share_core _ _ _ ?_ ?_
    (shareArgs_empty_after_share opts.shareRecipients) pre post h
  · intro hmem
    simp only [List.mem_append] at hmem
    rcases hmem with (h1 | h1) | h1
    · exact empty_not_mem_beforeProfile opts h1
    · exact empty_not_mem_profileSeg opts h1
    · exact empty_not_mem_opt2 _ _ (by decide) h1
  · intro hmem
    by_cases hd : opts.debug
    · rw [if_pos hd] at hmem
      exact absurd hmem (by decide)
    · rw [if_neg hd] at hmem
      exact (List.not_mem_nil _) hmem

/-- Claim C2, counterexample: the claimed equivalence "the list contains the
token `--sandboxed` if and only if profile is empty" fails when another field
value is itself the literal `--sandboxed`: with prompt `--sandboxed` and
profile `engineering`, the returned list contains the token `--sandboxed`
although profile is non-empty. -/
theorem buildArgs_sandboxed_value_clash :
    "--sandboxed" ∈ buildArgs
      { prompt := "--sandboxed", savedPrompt := "", skill := "", model := "", name := "",
        mcp := "", cwd := "", profile := "engineering", outputFormat := "",
        shareRecipients := [], debug := false }
    ∧ ({ prompt := "--sandboxed", savedPrompt := "", skill := "", model := "",
          name := "", mcp := "", cwd := "", profile := "engineering", outputFormat := "",
          shareRecipients := [], debug := false } : BuildArgsOptions).profile ≠ "" := by
  constructor
  · decide
  · decide

/-- Claim C2 (amended): exactly one of the two branches contributes tokens,
never both and never neither: the result decomposes as a fixed prefix, then
`["--profile", profile]` when profile is non-empty and `["--sandboxed"]` when
it is empty, then a fixed suffix; the consecutive pair `--profile`, profile
occurs in the result if and only if profile is non-empty; and the result
contains the token `--sandboxed` whenever profile is empty (the converse of
the last point can fail when another field value is the literal
`--sandboxed`). -/
theorem buildArgs_profile_exclusive (opts : BuildArgsOptions) :
    buildArgs opts = beforeProfile opts ++ profileSeg opts ++ afterProfile opts
    ∧ (opts.profile ≠ "" → profileSeg opts = ["--profile", opts.profile])
    ∧ (opts.profile = "" → profileSeg opts = ["--sandboxed"])
    ∧ (List.IsInfix ["--profile", opts.profile] (buildArgs opts) ↔ opts.profile ≠ "")
    ∧ (opts.profile = "" → "--sandboxed" ∈ buildArgs opts) := by
  refine ⟨buildArgs_segments opts, ?_, ?_, ⟨?_, ?_⟩, ?_⟩
  · intro hp
    simp [profileSeg, hp]
  · intro hp
    simp [profileSeg, hp]
  · intro hinf
    by_contra hp
    obtain ⟨s, t, hst⟩ := hinf
    rw [hp] at hst
    have hst' : buildArgs opts = (s ++ ["--profile"]) ++ "" :: t := by
      rw [← hst]
      simp
    obtain ⟨q, hq⟩ := buildArgs_empty_after_share opts (s ++ ["--profile"]) t hst'
    have hlast : (["--profile"] : List String) = ["--share"] :=
      (List.append_inj' hq (by rfl)).2
    exact absurd (List.cons.inj hlast).1 (by decide)
  · intro hp
    refine ⟨beforeProfile opts, afterProfile opts, ?_⟩
    rw [buildArgs_segments opts]
    simp [profileSeg, hp]
  · intro hp
    rw [buildArgs_segments opts]
    have : "--sandboxed" ∈ profileSeg opts := by
      simp [profileSeg, hp]
    simp only [List.mem_append]
    exact Or.inl (Or.inr this)

theorem buildArgs_profile_exclusive_witness :
    List.IsInfix ["--profile", "engineering"] (buildArgs
      { prompt := "hello", savedPrompt := "", skill := "", model := "", name := "",
        mcp := "", cwd := "", profile := "engineering", outputFormat := "",
        shareRecipients := ["a@x.com"], debug := true }) :=
  (buildArgs_profile_exclusive
    { prompt := "hello", savedPrompt := "", skill := "", model := "", name := "",
      mcp := "", cwd := "", profile := "engineering", outputFormat := "",
      shareRecipients := ["a@x.com"], debug := true }).2.2.2.1.mpr (by decide)

theorem count_share_opt2 (flag v : String) (hf : flag ≠ "--share") :
    List.count "--share" (opt2 flag v) = List.count "--share" [v] := by
  unfold opt2
  by_cases hv : v = ""
  · rw [if_neg (fun hcon => hcon hv), hv]
    decide
  · rw [if_pos hv]
    simp [List.count_cons, hf]

theorem count_share_profileSeg (opts : BuildArgsOptions) :
    List.count "--share" (profileSeg opts) = List.count "--share" [opts.profile] := by
  unfold profileSeg
  by_cases hp : opts.profile ≠ ""
  · rw [if_pos hp]
    simp [List.count_cons]
  · rw [if_neg hp]
    have hp0 : opts.profile = "" := not_ne_iff.mp hp
    rw [hp0]
    decide

theorem count_share_shareArgs (rs : List String) :
    List.count "--share" (shareArgs rs) = rs.length + List.count "--share" rs := by
  induction rs with
  | nil => decide
  | cons r rs ih =>
    simp only [shareArgs, List.count_cons, List.length_cons, ih]
    by_cases h : r = "--share" <;> simp [h] <;> omega

theorem mem_shareArgs_infix (r : String) (rs : List String) (h : r ∈ rs) :
    ∃ s t, shareArgs rs = s ++ ["--share", r] ++ t := by
  induction rs with
  | nil => exact absurd h (List.not_mem_nil r)
  | cons a rs ih =>
    rcases List.mem_cons.mp h with rfl | hmem
    · exact ⟨[], shareArgs rs, rfl⟩
    · obtain ⟨s, t, hst⟩ := ih hmem
      exact ⟨"--share" :: a :: s, t, by simp [shareArgs, hst]⟩

/-- Claim C10, counterexample: the number of `--share` tokens is not always
the length of the share-recipients sequence: a recipient that is itself the
literal `--share` contributes two such tokens. -/
theorem buildArgs_share_count_clash :
    List.count "--share" (buildArgs
      { prompt := "", savedPrompt := "", skill := "p", model := "", name := "",
        mcp := "", cwd := "", profile := "", outputFormat := "",
        shareRecipients := ["--share"], debug := false })
      ≠ List.length (["--share"] : List String) := by
  decide

/-- Claim C10 (amended): empty strings in share-recipients are not treated as
absent: the share step contributes exactly the pairs `--share`, recipient, one
per element of share-recipients in input order (each such pair occurs
contiguously in the result), and the total number of `--share` tokens is the
length of share-recipients plus the number of recipients and other field
values that are themselves the literal `--share`. -/
theorem buildArgs_share_tokens (opts : BuildArgsOptions) :
    buildArgs opts
      = (beforeProfile opts ++ profileSeg opts ++ opt2 "--output-format" opts.outputFormat)
        ++ shareArgs opts.shareRecipients ++ (if opts.debug then ["--debug"] else [])
    ∧ (∀ r ∈ opts.shareRecipients, List.IsInfix ["--share", r] (buildArgs opts))
    ∧ List.count "--share" (buildArgs opts)
        = opts.shareRecipients.length + List.count "--share" opts.shareRecipients
          + List.count "--share" (fieldValues opts) := by
  have hform : buildArgs opts
      = (beforeProfile opts ++ profileSeg opts ++ opt2 "--output-format" opts.outputFormat)
        ++ shareArgs opts.shareRecipients ++ (if opts.debug then ["--debug"] else []) := by
    rw [buildArgs_segments]
    simp [afterProfile, List.append_assoc]
  refine ⟨hform, ?_, ?_⟩
  · intro r hr
    obtain ⟨s, t, hst⟩ := mem_shareArgs_infix r opts.shareRecipients hr
    refine ⟨(beforeProfile opts ++ profileSeg opts
      ++ opt2 "--output-format" opts.outputFormat) ++ s,
      t ++ (if opts.debug then ["--debug"] else []), ?_⟩
    rw [hform, hst]
    simp [List.append_assoc]
  · rw [hform]
    have hdbg : List.count "--share" (if opts.debug then ["--debug"] else []) = 0 := by
      by_cases hd : opts.debug
      · rw [if_pos hd]; decide
      · rw [if_neg hd]; decide
    simp only [List.count_append, hdbg, beforeProfile, fieldValues,
      count_share_shareArgs, count_share_profileSeg,
      count_share_opt2 "--prompt" _ (by decide),
      count_share_opt2 "--saved-prompt" _ (by decide),
      count_share_opt2 "--skill" _ (by decide),
      count_share_opt2 "--model" _ (by decide),
      count_share_opt2 "--name" _ (by decide),
      count_share_opt2 "--mcp" _ (by decide),
      count_share_opt2 "--cwd" _ (by decide),
      count_share_opt2 "--output-format" _ (by decide)]
    simp [List.count_cons, List.count_nil]
    omega

theorem buildArgs_share_tokens_witness :
    List.IsInfix ["--share", ""] (buildArgs
      { prompt := "", savedPrompt := "", skill := "p", model := "", name := "",
        mcp := "", cwd := "", profile := "", outputFormat := "",
        shareRecipients := ["a@x.com", ""], debug := false }) :=
  (buildArgs_share_tokens
    { prompt := "", savedPrompt := "", skill := "p", model := "", name := "",
      mcp := "", cwd := "", profile := "", outputFormat := "",
      shareRecipients := ["a@x.com", ""], debug := false }).2.1 "" (by decide)

/-- Claim C5, counterexample: the code also fails with the missing-location
error when the `location` header is present but empty (the JS falsiness test
`if (!location)`), so "fails ... exactly when the header is absent" is not
literally true: here the header is present (an empty string) and the code
still fails with `MissingRedirectLocation`. -/
theorem resolveLatest_empty_location_clash :
    resolveLatestResponse { statusCode := 302, location := some "" } (fun s => s)
        = .error (.missingRedirectLocation "Redirect location header missing")
    ∧ (some "" : Option String) ≠ none := by
  exact ⟨rfl, by decide⟩

/-- Claim C5 (amended): for the `latest` version spec, resolution fails with a
`RedirectExpected` error exactly when the response status is neither 301 nor
302; it fails with `MissingRedirectLocation` exactly when the status is
301/302 but the `location` header is absent or empty; otherwise the redirect
target becomes the download URL, and the second segment of the target path
(split on `/`, empty segments discarded) becomes the resolved version when at
least two segments exist, the resolved version staying the literal `latest`
otherwise. -/
theorem resolveLatestResponse_spec (resp : HttpResponse) (f : String → String) :
    ((∃ m, resolveLatestResponse resp f = .error (.redirectExpected m))
        ↔ (resp.statusCode ≠ 301 ∧ resp.statusCode ≠ 302))
    ∧ ((∃ m, resolveLatestResponse resp f = .error (.missingRedirectLocation m))
        ↔ ((resp.statusCode = 301 ∨ resp.statusCode = 302)
            ∧ (resp.location = none ∨ resp.location = some "")))
    ∧ (∀ loc, resp.location = some loc → loc ≠ "" →
        (resp.statusCode = 301 ∨ resp.statusCode = 302) →
        ∃ v, resolveLatestResponse resp f = .ok (loc, v)
          ∧ (2 ≤ (pathSegments (f loc)).length → v = (pathSegments (f loc)).getD 1 "latest")
          ∧ ((pathSegments (f loc)).length < 2 → v = "latest")) := by
  by_cases hs : resp.statusCode = 302 ∨ resp.statusCode = 301
  case neg =>
    have hres : resolveLatestResponse resp f = .error (.redirectExpected
        ("Expected redirect, got status " ++ toString resp.statusCode)) := by
      unfold resolveLatestResponse
      rw [if_neg hs]
    rw [hres]
    refine ⟨?_, ?_, ?_⟩
    · constructor
      · intro _
        exact ⟨fun hc => hs (Or.inr hc), fun hc => hs (Or.inl hc)⟩
      · intro _
        exact ⟨_, rfl⟩
    · constructor
      · rintro ⟨m, hm⟩
        simp at hm
      · rintro ⟨hc, _⟩
        rcases hc with h | h
        · exact absurd (Or.inr h) hs
        · exact absurd (Or.inl h) hs
    · intro loc _ _ hc
      rcases hc with h | h
      · exact absurd (Or.inr h) hs
      · exact absurd (Or.inl h) hs
  case pos =>
    have hne : ¬(resp.statusCode ≠ 301 ∧ resp.statusCode ≠ 302) := by
      rcases hs with h | h
      · exact fun hc => hc.2 h
      · exact fun hc => hc.1 h
    cases hloc : resp.location with
    | none =>
      have hres : resolveLatestResponse resp f
          = .error (.missingRedirectLocation "Redirect location header missing") := by
        unfold resolveLatestResponse
        rw [if_pos hs, hloc]
      rw [hres]
      refine ⟨?_, ?_, ?_⟩
      · constructor
        · rintro ⟨m, hm⟩
          simp at hm
        · intro hc
          exact absurd hc hne
      · constructor
        · intro _
          exact ⟨hs.symm, Or.inl rfl⟩
        · intro _
          exact ⟨_, rfl⟩
      · intro loc hcon
        exact absurd hcon (by simp)
    | some l =>
      by_cases hl : l = ""
      · have hres : resolveLatestResponse resp f
            = .error (.missingRedirectLocation "Redirect location header missing") := by
          unfold resolveLatestResponse
          rw [if_pos hs, hloc]
          simp [hl]
        rw [hres]
        refine ⟨?_, ?_, ?_⟩
        · constructor
          · rintro ⟨m, hm⟩
            simp at hm
          · intro hc
            exact absurd hc hne
        · constructor
          · intro _
            refine ⟨hs.symm, Or.inr ?_⟩
            rw [hl]
          · intro _
            exact ⟨_, rfl⟩
        · intro loc hcon hne' _
          injection hcon with h
          exact absurd (h.symm.trans hl) hne'
      · have hres : resolveLatestResponse resp f
            = .ok (l, if 2 ≤ (pathSegments (f l)).length
                then (pathSegments (f l)).getD 1 "latest" else "latest") := by
          unfold resolveLatestResponse
          rw [if_pos hs, hloc]
          simp [hl]
        rw [hres]
        refine ⟨?_, ?_, ?_⟩
        · constructor
          · rintro ⟨m, hm⟩
            simp at hm
          · intro hc
            exact absurd hc hne
        · constructor
          · rintro ⟨m, hm⟩
            simp at hm
          · rintro ⟨_, hc | hc⟩
            · exact absurd hc (by simp)
            · injection hc with h
              exact absurd h hl
        · intro loc hcon hne' _
          injection hcon with h
          subst h
          refine ⟨_, rfl, ?_, ?_⟩
          · intro h2
            rw [if_pos h2]
          · intro h2
            rw [if_neg (by omega)]

theorem resolveLatestResponse_spec_witness :
    ∃ v, resolveLatestResponse
        { statusCode := 302, location := some "/stable/v1.2.3/oz.deb" } (fun s => s)
        = .ok ("/stable/v1.2.3/oz.deb", v)
      ∧ (2 ≤ (pathSegments "/stable/v1.2.3/oz.deb").length →
          v = (pathSegments "/stable/v1.2.3/oz.deb").getD 1 "latest")
      ∧ ((pathSegments "/stable/v1.2.3/oz.deb").length < 2 → v = "latest") :=
  (resolveLatestResponse_spec
    { statusCode := 302, location := some "/stable/v1.2.3/oz.deb" } (fun s => s)).2.2
    "/stable/v1.2.3/oz.deb" rfl (by decide) (Or.inr rfl)

/-- Claim C6: the cache key is `<channel>-<resolved version>`; the cache is
queried under tool name `oz` with that key; on a hit (a non-empty cached
path) the cached package path is returned and the trace shows no download;
on a miss the resolved URL is downloaded, registered under tool `oz`,
filename `oz.deb` and the same key, and the now-cached package path is
returned. -/
theorem cacheOzDeb_spec (o : Oracles) (channel version debUrl : String) :
    (o.cacheFind "oz" (channel ++ "-" ++ version) ≠ "" →
      cacheOzDeb o channel version debUrl
        = ([.cacheQuery "oz" (channel ++ "-" ++ version)],
           pathJoin (o.cacheFind "oz" (channel ++ "-" ++ version)) "oz.deb"))
    ∧ (o.cacheFind "oz" (channel ++ "-" ++ version) = "" →
      cacheOzDeb o channel version debUrl
        = ([.cacheQuery "oz" (channel ++ "-" ++ version),
            .download debUrl,
            .cacheStore (o.downloadTool debUrl) "oz.deb" "oz" (channel ++ "-" ++ version)],
           pathJoin (o.cacheFile (o.downloadTool debUrl) "oz.deb" "oz"
             (channel ++ "-" ++ version)) "oz.deb")) := by
  constructor
  · intro hhit
    unfold cacheOzDeb
    rw [if_neg hhit]
  · intro hmiss
    unfold cacheOzDeb
    rw [if_pos hmiss]

theorem cacheOzDeb_spec_witness :
    sampleOracles.cacheFind "oz" ("stable" ++ "-" ++ "v1.2.3") = ""
    ∧ cacheOzDeb sampleOracles "stable" "v1.2.3" "https://releases.warp.dev/x.deb"
        = ([.cacheQuery "oz" ("stable" ++ "-" ++ "v1.2.3"),
            .download "https://releases.warp.dev/x.deb",
            .cacheStore (sampleOracles.downloadTool "https://releases.warp.dev/x.deb")
              "oz.deb" "oz" ("stable" ++ "-" ++ "v1.2.3")],
           pathJoin (sampleOracles.cacheFile
             (sampleOracles.downloadTool "https://releases.warp.dev/x.deb")
             "oz.deb" "oz" ("stable" ++ "-" ++ "v1.2.3")) "oz.deb") :=
  ⟨rfl, (cacheOzDeb_spec sampleOracles "stable" "v1.2.3"
    "https://releases.warp.dev/x.deb").2 rfl⟩

/-- Claim C7: on a non-Linux platform the locator fails with the
unsupported-platform error, and on an unsupported CPU architecture with the
unsupported-architecture error, in both cases with an empty event trace — in
particular no HTTP request of any kind precedes the failure. -/
theorem downloadOzDeb_guards (o : Oracles) (platform osArch channel version : String) :
    (platform ≠ "linux" →
      downloadOzDeb o platform osArch channel version
        = ([], .error (.unsupportedPlatform
            ("Only Linux runners are supported - the current platform is " ++ platform))))
    ∧ (platform = "linux" → osArch ≠ "x64" → osArch ≠ "arm64" →
      downloadOzDeb o platform osArch channel version
        = ([], .error (.unsupportedArchitecture
            ("Unsupported architecture " ++ osArch)))) := by
  constructor
  · intro hp
    unfold downloadOzDeb
    rw [if_pos hp]
  · intro hp ha1 ha2
    unfold downloadOzDeb
    rw [if_neg (fun hcon => hcon hp), if_neg ha1, if_neg ha2]

theorem downloadOzDeb_guards_witness :
    ("darwin" : String) ≠ "linux"
    ∧ downloadOzDeb sampleOracles "darwin" "x64" "stable" "latest"
        = ([], .error (.unsupportedPlatform
            ("Only Linux runners are supported - the current platform is " ++ "darwin"))) :=
  ⟨by decide, (downloadOzDeb_guards sampleOracles "darwin" "x64" "stable" "latest").1
    (by decide)⟩

theorem resolveCommand_not_mri (ch m : String) :
    resolveCommand ch ≠ .error (.missingRequiredInput m) := by
  unfold resolveCommand
  split
  · simp
  · split
    · simp
    · simp

theorem resolveLatestResponse_not_mri (resp : HttpResponse) (f : String → String)
    (m : String) :
    resolveLatestResponse resp f ≠ .error (.missingRequiredInput m) := by
  unfold resolveLatestResponse
  split
  · split
    · simp
    · split
      · simp
      · simp
  · simp

theorem downloadOzDebArch_not_mri (o : Oracles) (channel version arch debArch m : String) :
    (downloadOzDebArch o channel version arch debArch).2
      ≠ .error (.missingRequiredInput m) := by
  unfold downloadOzDebArch
  split
  · dsimp only
    split
    next e heq =>
      intro hcon
      simp only at hcon
      injection hcon with he
      rw [he] at heq
      exact resolveLatestResponse_not_mri _ _ m heq
    next pair heq =>
      simp
  · simp

theorem downloadOzDeb_not_mri (o : Oracles) (platform osArch channel version m : String) :
    (downloadOzDeb o platform osArch channel version).2
      ≠ .error (.missingRequiredInput m) := by
  unfold downloadOzDeb
  split
  · simp
  · split
    · exact downloadOzDebArch_not_mri o channel version "x86_64" "amd64" m
    · split
      · exact downloadOzDebArch_not_mri o channel version "aarch64" "arm64" m
      · simp

theorem installOz_not_mri (o : Oracles) (platform osArch channel version m : String) :
    (installOz o platform osArch channel version).2
      ≠ .error (.missingRequiredInput m) := by
  unfold installOz
  split
  next effs e heq =>
    intro hcon
    simp only at hcon
    have h2 := downloadOzDeb_not_mri o platform osArch channel version m
    rw [heq, hcon] at h2
    exact h2 rfl
  next effs ozDeb heq =>
    split
    · simp
    · split
      · simp
      · simp

theorem runAgentMain_not_mri (inp : Inputs) (platform osArch : String) (o : Oracles)
    (m : String) :
    (runAgentMain inp platform osArch o).2 ≠ .error (.missingRequiredInput m) := by
  unfold runAgentMain
  split
  next e heq =>
    intro hcon
    simp only at hcon
    rw [hcon] at heq
    exact resolveCommand_not_mri inp.ozChannel m heq
  next command heq =>
    split
    next effs e heq2 =>
      intro hcon
      simp only at hcon
      have h2 := installOz_not_mri o platform osArch inp.ozChannel inp.ozVersion m
      rw [heq2, hcon] at h2
      exact h2 rfl
    next effs ozDeb heq2 =>
      dsimp only
      split
      · simp
      · simp

/-- Claim C8: the orchestrator fails with a descriptive missing-input error,
with an empty event trace (so before any network or process activity), when
prompt, saved-prompt and skill are all absent, or when the API credential is
absent; when at least one of the three is present and the credential is
present, the validation passes: the run proceeds to the main pipeline and can
never fail with a missing-required-input error. -/
theorem runAgent_validation (inp : Inputs) (platform osArch : String) (o : Oracles) :
    (inp.prompt = "" → inp.savedPrompt = "" → inp.skill = "" →
      runAgent inp platform osArch o = ([], .error (.missingRequiredInput
        "Either `prompt`, `saved_prompt`, or `skill` must be provided")))
    ∧ (¬(inp.prompt = "" ∧ inp.savedPrompt = "" ∧ inp.skill = "") → inp.warpApiKey = "" →
      runAgent inp platform osArch o = ([], .error (.missingRequiredInput
        "`warp_api_key` must be provided.")))
    ∧ (¬(inp.prompt = "" ∧ inp.savedPrompt = "" ∧ inp.skill = "") → inp.warpApiKey ≠ "" →
      runAgent inp platform osArch o = runAgentMain inp platform osArch o
        ∧ ∀ m, (runAgent inp platform osArch o).2
            ≠ .error (.missingRequiredInput m)) := by
  refine ⟨?_, ?_, ?_⟩
  · intro h1 h2 h3
    unfold runAgent
    rw [if_pos ⟨h1, h2, h3⟩]
  · intro hsome hkey
    unfold runAgent
    rw [if_neg hsome, if_pos hkey]
  · intro hsome hkey
    have hrun : runAgent inp platform osArch o = runAgentMain inp platform osArch o := by
      unfold runAgent
      rw [if_neg hsome, if_neg hkey]
    refine ⟨hrun, ?_⟩
    intro m
    rw [hrun]
    exact runAgentMain_not_mri inp platform osArch o m

theorem runAgent_validation_witness :
    runAgent sampleMissingInputs "linux" "x64" sampleOracles
      = ([], .error (.missingRequiredInput
          "Either `prompt`, `saved_prompt`, or `skill` must be provided")) :=
  (runAgent_validation sampleMissingInputs "linux" "x64" sampleOracles).1 rfl rfl rfl
